import Mathlib

/-!
Verification of the localhostify multi-site static/proxy server
(`server-cli`).  The definitions below are shallow embeddings of the Rust
source: `should_proxy` and the port-conflict check from `src/main.rs`, and
`proxy_request` with its header translation from `src/server/proxy.rs`.
Strings are modelled by Lean `String` with list-based helpers mirroring
Rust's `str::starts_with`, `str::ends_with` and `str::contains`.
-/

/-- Rust `str::contains` on character lists: `pat` occurs as a contiguous
substring of the second argument. -/
def containsSubChars (pat : List Char) : List Char → Bool
  | [] => pat.isEmpty
  | s@(_ :: rest) => pat.isPrefixOf s || containsSubChars pat rest

/-- Rust `str::starts_with`. -/
def strStarts (s p : String) : Bool := p.data.isPrefixOf s.data

/-- Rust `str::ends_with`. -/
def strEnds (s p : String) : Bool := p.data.reverse.isPrefixOf s.data.reverse

/-- Rust `str::contains`. -/
def strContains (s p : String) : Bool := containsSubChars p.data s.data

/-- Embedding of `should_proxy` from `src/main.rs` (lines 389-410).  The
parenthesisation reflects Rust operator precedence: `&&` binds tighter than
`||`, so the chain of `ends_with` exclusions guards only the
`contains("/api/")` disjunct. -/
def should_proxy (path : String) : Bool :=
  strStarts path "/api" || strStarts path "/v1" || strStarts path "/graphql" ||
    (strContains path "/api/"
      && !strEnds path ".html"
      && !strEnds path ".css"
      && !strEnds path ".js"
      && !strEnds path ".png"
      && !strEnds path ".jpg"
      && !strEnds path ".jpeg"
      && !strEnds path ".gif"
      && !strEnds path ".svg"
      && !strEnds path ".ico"
      && !strEnds path ".woff"
      && !strEnds path ".woff2"
      && !strEnds path ".ttf"
      && !strEnds path ".eot")

/-- The thirteen static-asset extensions named by the specification. -/
def staticExtensions : List String :=
  [".html", ".css", ".js", ".png", ".jpg", ".jpeg", ".gif", ".svg", ".ico",
   ".woff", ".woff2", ".ttf", ".eot"]

/-- Classifier rule as the specification words it: proxy iff the path starts
with one of the three API prefixes, or contains `/api/` and ends in none of
the known static-asset extensions. -/
def classifierSpecProxy (p : String) : Prop :=
  strStarts p "/api" = true ∨ strStarts p "/v1" = true ∨
    strStarts p "/graphql" = true ∨
    (strContains p "/api/" = true ∧ ∀ e ∈ staticExtensions, strEnds p e = false)

/-- C1: evaluating the classifier at the failing input: the path
`/api/users/style.css` starts with `/api`, so `should_proxy` returns `true`
(Proxy) although both the specification's example and the code's own comment
("don't proxy requests for static assets") expect Static. -/
theorem should_proxy_api_style_css_is_proxied :
    should_proxy "/api/users/style.css" = true := by decide

/-- C2: the classifier returns Proxy exactly on the paths described by the
specification's rule: those starting with `/api`, `/v1` or `/graphql`, or
containing `/api/` while ending in none of the static-asset extensions;
every other path is Static. -/
theorem should_proxy_iff_spec_rule (p : String) :
    should_proxy p = true ↔ classifierSpecProxy p := by
  simp only [should_proxy, classifierSpecProxy, staticExtensions,
    Bool.or_eq_true, Bool.and_eq_true, Bool.not_eq_true',
    List.forall_mem_cons, List.forall_mem_nil]
  tauto

/-- C2 witness: the rule applied at `/v1/foo` via the equivalence. -/
theorem should_proxy_iff_spec_rule_witness :
    should_proxy "/v1/foo" = true :=
  (should_proxy_iff_spec_rule "/v1/foo").mpr (Or.inr (Or.inl (by decide)))

/-! ## Header model (`src/server/proxy.rs`)

Hyper/reqwest header maps are modelled as ordered association lists of
string pairs; `HeaderMap::insert` replaces every existing entry of the
inserted name.  An inbound header entry carries, beside its name and value,
a flag `convOk` recording whether the conversion chain the code applies
(`value.to_str()`, `HeaderName::from_bytes`, `HeaderValue::from_str`)
succeeds; it fails exactly when the raw value is not visible-ASCII/UTF-8.
Header names produced by hyper are already lower-case; the code still calls
`to_lowercase` before the hop-by-hop test and we model that call. -/

/-- Rust `str::to_lowercase`, character by character (identical to Rust on
the ASCII names involved here). -/
def toLowerStr (s : String) : String := ⟨s.data.map Char.toLower⟩

/-- One inbound (or backend-response) header entry. -/
structure Header where
  name : String
  value : String
  convOk : Bool
deriving DecidableEq, Repr

/-- Embedding of `is_hop_by_hop_header` (proxy.rs lines 146-151). -/
def is_hop_by_hop_header (name : String) : Bool :=
  name == "connection" || name == "keep-alive" || name == "proxy-authenticate"
    || name == "proxy-authorization" || name == "te" || name == "trailers"
    || name == "transfer-encoding" || name == "upgrade" || name == "host"

/-- `HeaderMap::insert`: drop every entry of the given name, then append the
new single entry. -/
def mapInsert (m : List (String × String)) (n v : String) :
    List (String × String) :=
  m.filter (fun e => !(e.1 == n)) ++ [(n, v)]

/-- All values stored under a name, in map order. -/
def getAll (m : List (String × String)) (n : String) : List String :=
  (m.filter (fun e => e.1 == n)).map (fun e => e.2)

/-- One step of the inbound-header copying loop (proxy.rs lines 42-54):
skip hop-by-hop names (checked on the lower-cased name) and entries whose
conversion fails; insert the rest. -/
def fwdStep (m : List (String × String)) (h : Header) :
    List (String × String) :=
  if is_hop_by_hop_header (toLowerStr h.name) then m
  else if h.convOk then mapInsert m h.name h.value
  else m

/-- Embedding of the inbound-header copying loop: fold `fwdStep` over the
request headers starting from the empty reqwest `HeaderMap`. -/
def forwardHeaders (hs : List Header) : List (String × String) :=
  hs.foldl fwdStep []

/-- Whether an entry survives the copying loop's tests for a given name. -/
def keptFor (n : String) (h : Header) : Bool :=
  h.name == n && !is_hop_by_hop_header (toLowerStr h.name) && h.convOk

/-- Accumulate the most recent surviving value for a name. -/
def lastStep (n : String) (acc : Option String) (h : Header) : Option String :=
  if keptFor n h then some h.value else acc

/-- Last surviving value for a name, if any (what `insert` semantics keep). -/
def lastKept (hs : List Header) (n : String) : Option String :=
  hs.foldl (lastStep n) none

/-- One step of the response-header copying loop (proxy.rs lines 96-107):
identical filtering, inserting into the hyper response header map. -/
def forwardRespHeaders (hs : List Header) : List (String × String) :=
  hs.foldl fwdStep []

/-- The three unconditional CORS inserts (proxy.rs lines 109-112). -/
def addCorsHeaders (m : List (String × String)) : List (String × String) :=
  mapInsert
    (mapInsert
      (mapInsert m "access-control-allow-origin" "*")
      "access-control-allow-methods" "GET, POST, PUT, DELETE, OPTIONS")
    "access-control-allow-headers" "content-type, authorization"

/-! ## Request / response model -/

/-- Inbound axum request.  `bodyOk` records whether
`axum::body::to_bytes` succeeds; `methodOk` whether
`reqwest::Method::from_bytes` accepts the method string (on hyper-supplied
methods it always does). -/
structure InboundRequest where
  method : String
  methodOk : Bool
  pathAndQuery : String
  headers : List Header
  bodyOk : Bool
  body : String
deriving Repr

/-- The outbound reqwest request the forwarder builds. -/
structure OutboundRequest where
  url : String
  method : String
  headers : List (String × String)
  body : String
deriving DecidableEq, Repr

/-- Backend response as reqwest reports it.  `status` is the `u16` of
`resp.status()` (the `http` crate guarantees `100 ≤ status ≤ 999`);
`bodyOk` records whether `resp.bytes()` succeeds. -/
structure BackendResp where
  status : Nat
  headers : List Header
  bodyOk : Bool
  body : String
deriving Repr

/-- Outcome of `proxy_req.send().await`: success, a connection failure
(`e.is_connect()`), or any other reqwest error. -/
inductive SendResult where
  | ok (resp : BackendResp)
  | connectErr
  | otherErr
deriving Repr

/-- The part of `ServerConfig` the forwarder reads. -/
structure Config where
  proxy_port : Option Nat
deriving Repr

/-- Axum response produced by the forwarder. -/
structure HttpResponse where
  status : Nat
  headers : List (String × String)
  body : String
deriving DecidableEq, Repr

/-- Building the outbound request (proxy.rs lines 28-74): loopback URL with
the original path+query, original method (`from_bytes` falling back to GET),
filtered headers, body bytes. -/
def buildOutbound (port : Nat) (req : InboundRequest) : OutboundRequest :=
  { url := "http://127.0.0.1:" ++ toString port ++ req.pathAndQuery
    method := if req.methodOk then req.method else "GET"
    headers := forwardHeaders req.headers
    body := req.body }

/-- The literal JSON body of the 502 diagnostic (proxy.rs lines 122-129);
`\x7b` and `\x7d` are the braces of the Rust format string. -/
def backendDownBody (port : Nat) : String :=
  "\x7b\n    \"error\": \"Backend server not available\",\n    \"message\": \"No server found at localhost:"
    ++ toString port
    ++ ".\",\n    \"suggestion\": \"Start your backend on port "
    ++ toString port
    ++ "\"\n\x7d"

/-- The 502 diagnostic response built on connection failure
(proxy.rs lines 131-136). -/
def backendDownResponse (port : Nat) : HttpResponse :=
  { status := 502
    headers := [("content-type", "application/json"),
                ("access-control-allow-origin", "*")]
    body := backendDownBody port }

/-- The success response (proxy.rs lines 77-116): status through
`StatusCode::from_u16 … unwrap_or(500)`, backend headers filtered of
hop-by-hop names, then the three CORS inserts, backend body verbatim. -/
def successResponse (resp : BackendResp) : HttpResponse :=
  { status := if 100 ≤ resp.status ∧ resp.status ≤ 999 then resp.status else 500
    headers := addCorsHeaders (forwardRespHeaders resp.headers)
    body := resp.body }

/-- Embedding of `proxy_request` (proxy.rs lines 16-144).  The backend is an
oracle mapping the outbound request to a `SendResult`.  Error results model
`Err(StatusCode)` as the numeric code: no configured port is 500, an
unreadable inbound body is 400 (checked before sending), a failed
`resp.bytes()` is 500, any non-connect send error is 502. -/
def proxy_request (cfg : Config) (req : InboundRequest)
    (backend : OutboundRequest → SendResult) : Except Nat HttpResponse :=
  match cfg.proxy_port with
  | none => .error 500
  | some port =>
    if req.bodyOk = false then .error 400
    else
      match backend (buildOutbound port req) with
      | .ok resp =>
        if resp.bodyOk = false then .error 500
        else .ok (successResponse resp)
      | .connectErr => .ok (backendDownResponse port)
      | .otherErr => .error 502

/-! ## Header-map lemmas -/

lemma filter_not_beq_then_beq (m : List (String × String)) (n : String) :
    (m.filter (fun e => !(e.1 == n))).filter (fun e => e.1 == n) = [] := by
  induction m with
  | nil => rfl
  | cons a t ih =>
    by_cases h : a.1 == n <;> simp [List.filter_cons, h, ih]

lemma filter_beq_of_filter_not (m : List (String × String)) (n k : String)
    (h : (n == k) = false) :
    (m.filter (fun e => !(e.1 == n))).filter (fun e => e.1 == k) =
      m.filter (fun e => e.1 == k) := by
  induction m with
  | nil => rfl
  | cons a t ih =>
    by_cases h1 : a.1 == n
    · have h2 : (a.1 == k) = false := by
        have := eq_of_beq h1
        subst this
        exact h
      simp [List.filter_cons, h1, h2, ih]
    · by_cases h2 : a.1 == k <;> simp [List.filter_cons, h1, h2, ih]

/-- Inserting a name stores exactly that one value under it. -/
lemma getAll_mapInsert_self (m : List (String × String)) (n v : String) :
    getAll (mapInsert m n v) n = [v] := by
  simp [getAll, mapInsert, List.filter_append, filter_not_beq_then_beq,
    List.filter_cons]

/-- Inserting one name leaves every other name's values unchanged. -/
lemma getAll_mapInsert_ne (m : List (String × String)) (n k v : String)
    (h : (n == k) = false) :
    getAll (mapInsert m n v) k = getAll m k := by
  simp [getAll, mapInsert, List.filter_append, filter_beq_of_filter_not m n k h,
    List.filter_cons, h]

/-- Folding `lastStep` from an arbitrary accumulator: the tail's own result
wins when it exists. -/
lemma lastStep_foldl_acc (n : String) (t : List Header) :
    ∀ a : Option String,
      t.foldl (lastStep n) a =
        match t.foldl (lastStep n) none with
        | some v => some v
        | none => a := by
  induction t with
  | nil => intro a; rfl
  | cons h t ih =>
    intro a
    simp only [List.foldl_cons]
    rw [ih (lastStep n a h), ih (lastStep n none h)]
    cases hF : t.foldl (lastStep n) none with
    | some v => rfl
    | none =>
      by_cases hk : keptFor n h <;> simp [lastStep, hk]

/-- Master lemma: after the copying fold, the values stored under a name are
the last surviving entry for that name, or the initial map's values when no
entry survives. -/
lemma getAll_foldl_fwdStep (n : String) (hs : List Header) :
    ∀ m : List (String × String),
      getAll (hs.foldl fwdStep m) n =
        match hs.foldl (lastStep n) none with
        | some v => [v]
        | none => getAll m n := by
  induction hs with
  | nil => intro m; rfl
  | cons h t ih =>
    intro m
    simp only [List.foldl_cons]
    rw [ih (fwdStep m h), lastStep_foldl_acc n t (lastStep n none h)]
    cases hF : t.foldl (lastStep n) none with
    | some v => rfl
    | none =>
      by_cases h1 : is_hop_by_hop_header (toLowerStr h.name)
      · have hk : keptFor n h = false := by
          simp [keptFor, h1]
        simp [fwdStep, lastStep, h1, hk]
      · by_cases h2 : h.convOk
        · by_cases h3 : h.name == n
          · have hk : keptFor n h = true := by
              simp [keptFor, h1, h2, h3]
            have hn : h.name = n := eq_of_beq h3
            simp only [fwdStep, lastStep, h1, h2, hk, if_false, if_true,
              Bool.false_eq_true, ite_false, ite_true]
            rw [hn, getAll_mapInsert_self]
          · have hk : keptFor n h = false := by
              simp [keptFor, h3]
            simp only [fwdStep, lastStep, h1, h2, hk, Bool.false_eq_true,
              ite_false, ite_true]
            exact getAll_mapInsert_ne m h.name n h.value (by simpa using h3)
        · have hk : keptFor n h = false := by
            simp [keptFor, h2]
          simp [fwdStep, lastStep, h1, h2, hk]

/-- Specialisation to the empty initial map. -/
lemma getAll_forwardHeaders (hs : List Header) (n : String) :
    getAll (forwardHeaders hs) n =
      match lastKept hs n with
      | some v => [v]
      | none => [] := by
  rw [forwardHeaders, lastKept, getAll_foldl_fwdStep]
  cases hs.foldl (lastStep n) none <;> rfl

/-- No entry survives for a name exactly when every entry fails its tests. -/
lemma lastKept_eq_none_iff (hs : List Header) (n : String) :
    lastKept hs n = none ↔ ∀ h ∈ hs, keptFor n h = false := by
  induction hs with
  | nil => simp [lastKept]
  | cons h t ih =>
    rw [lastKept, List.foldl_cons, lastStep_foldl_acc n t (lastStep n none h)]
    rw [lastKept] at ih
    constructor
    · intro hnone
      cases hF : t.foldl (lastStep n) none with
      | some v => rw [hF] at hnone; exact absurd hnone (by simp)
      | none =>
        rw [hF] at hnone
        simp only at hnone
        intro x hx
        rcases List.mem_cons.mp hx with rfl | hx
        · by_cases hk : keptFor n x
          · rw [lastStep, if_pos hk] at hnone; exact absurd hnone (by simp)
          · simpa using hk
        · exact (ih.mp hF) x hx
    · intro hall
      have ht : t.foldl (lastStep n) none = none :=
        ih.mpr (fun x hx => hall x (List.mem_cons_of_mem _ hx))
      rw [ht]
      simp only [lastStep, hall h (List.mem_cons_self _ _)]
      rfl

/-- Membership in a header map as a `getAll` statement. -/
lemma mem_iff_mem_getAll (m : List (String × String)) (n v : String) :
    (n, v) ∈ m ↔ v ∈ getAll m n := by
  simp only [getAll, List.mem_map, List.mem_filter]
  constructor
  · intro hm
    exact ⟨(n, v), ⟨hm, by simp⟩, rfl⟩
  · rintro ⟨⟨a, b⟩, ⟨he, hbeq⟩, rfl⟩
    have ha : a = n := by simpa using hbeq
    subst ha
    exact he

/-- C5 (amended): forwarding collapses duplicate header entries.  For every
name the outbound map holds at most one entry: the value of the last inbound
entry that passed the hop-by-hop and conversion tests, or nothing. -/
theorem forwarded_headers_last_entry_wins (hs : List Header) (n : String) :
    getAll (forwardHeaders hs) n =
      (match lastKept hs n with
        | some v => [v]
        | none => []) ∧
    (getAll (forwardHeaders hs) n).length ≤ 1 := by
  refine ⟨getAll_forwardHeaders hs n, ?_⟩
  rw [getAll_forwardHeaders hs n]
  cases lastKept hs n <;> simp

/-- C5 counterexample: two convertible entries named `x-a` with values `1`
then `2`; the outbound request keeps only the entry `2`, so duplicate
entries are not preserved. -/
theorem duplicate_header_entries_not_preserved :
    getAll (forwardHeaders
      [⟨"x-a", "1", true⟩, ⟨"x-a", "2", true⟩]) "x-a" ≠ ["1", "2"] := by
  decide

/-- C6 (amended): a name appears in the outbound headers iff it is not
hop-by-hop and some inbound entry with that name converts successfully; and
the response-header copy excludes every hop-by-hop name as well. -/
theorem forwarded_header_names_characterised (hs : List Header) (n : String) :
    ((∃ v, (n, v) ∈ forwardHeaders hs) ↔
      (is_hop_by_hop_header (toLowerStr n) = false ∧
        ∃ h, h ∈ hs ∧ h.name = n ∧ h.convOk = true)) ∧
    (∀ rs : List Header, is_hop_by_hop_header (toLowerStr n) = true →
      getAll (forwardRespHeaders rs) n = []) := by
  constructor
  · constructor
    · rintro ⟨v, hv⟩
      rw [mem_iff_mem_getAll, getAll_forwardHeaders] at hv
      cases hK : lastKept hs n with
      | none => rw [hK] at hv; exact absurd hv (by simp)
      | some w =>
        have hex : ∃ h, h ∈ hs ∧ keptFor n h = true := by
          by_contra hnone
          push_neg at hnone
          have : lastKept hs n = none :=
            (lastKept_eq_none_iff hs n).mpr
              (fun x hx => by simpa using (hnone x hx))
          rw [this] at hK; cases hK
        rcases hex with ⟨h, hmem, hkept⟩
        have h1 : h.name = n := eq_of_beq (by
          simp only [keptFor, Bool.and_eq_true] at hkept
          exact hkept.1.1)
        have h2 : h.convOk = true := by
          simp only [keptFor, Bool.and_eq_true] at hkept
          exact hkept.2
        have h3 : is_hop_by_hop_header (toLowerStr n) = false := by
          simp only [keptFor, Bool.and_eq_true, Bool.not_eq_true'] at hkept
          rw [← h1]
          exact hkept.1.2
        exact ⟨h3, h, hmem, h1, h2⟩
    · rintro ⟨hhop, h, hmem, hname, hconv⟩
      have hkept : keptFor n h = true := by
        simp [keptFor, hname, hconv, hhop]
      have : lastKept hs n ≠ none := by
        intro hnone
        have := (lastKept_eq_none_iff hs n).mp hnone h hmem
        rw [hkept] at this; cases this
      cases hK : lastKept hs n with
      | none => exact absurd hK this
      | some w =>
        refine ⟨w, ?_⟩
        rw [mem_iff_mem_getAll, getAll_forwardHeaders, hK]
        simp
  · intro rs hhop
    rw [forwardRespHeaders, show (rs.foldl fwdStep [] : List (String × String))
      = forwardHeaders rs from rfl, getAll_forwardHeaders]
    have : lastKept rs n = none := by
      rw [lastKept_eq_none_iff]
      intro h hmem
      by_cases hname : h.name == n
      · have : h.name = n := eq_of_beq hname
        simp [keptFor, this, hhop]
      · simp [keptFor, hname]
    rw [this]

/-- C6 witness: the characterisation applied at a concrete single-entry
request, showing the entry `x-a` is forwarded. -/
theorem forwarded_header_names_characterised_witness :
    ∃ v, ("x-a", v) ∈ forwardHeaders [⟨"x-a", "1", true⟩] :=
  (forwarded_header_names_characterised [⟨"x-a", "1", true⟩] "x-a").1.mpr
    ⟨by decide, ⟨"x-a", "1", true⟩, by simp, rfl, rfl⟩

/-- C6 counterexample: the header name `x-custom` is not hop-by-hop, yet its
entry is not copied because its value fails the UTF-8 conversion, refuting
the claim that a header is copied whenever its name is not hop-by-hop. -/
theorem unconvertible_header_not_copied :
    is_hop_by_hop_header (toLowerStr "x-custom") = false ∧
      ¬ (∃ v, ("x-custom", v) ∈ forwardHeaders [⟨"x-custom", "v", false⟩]) := by
  refine ⟨by decide, ?_⟩
  have h0 : forwardHeaders [⟨"x-custom", "v", false⟩] = [] := by decide
  rintro ⟨v, hv⟩
  rw [h0] at hv
  exact absurd hv (List.not_mem_nil _)

/-! ## Forwarder theorems -/

/-- C4: after any successful backend response (with its always-valid status
code and a readable body), the returned response stores exactly the three
permissive CORS values — overriding whatever CORS headers the backend set —
and copies the backend status verbatim. -/
theorem proxy_success_forces_cors_and_status (cfg : Config) (port : Nat)
    (req : InboundRequest) (backend : OutboundRequest → SendResult)
    (resp : BackendResp)
    (hport : cfg.proxy_port = some port)
    (hbody : req.bodyOk = true)
    (hsend : backend (buildOutbound port req) = SendResult.ok resp)
    (hrb : resp.bodyOk = true)
    (hlo : 100 ≤ resp.status) (hhi : resp.status ≤ 999) :
    proxy_request cfg req backend = .ok (successResponse resp) ∧
    getAll (successResponse resp).headers "access-control-allow-origin" =
      ["*"] ∧
    getAll (successResponse resp).headers "access-control-allow-methods" =
      ["GET, POST, PUT, DELETE, OPTIONS"] ∧
    getAll (successResponse resp).headers "access-control-allow-headers" =
      ["content-type, authorization"] ∧
    (successResponse resp).status = resp.status := by
  refine ⟨?_, ?_, ?_, ?_, ?_⟩
  · simp [proxy_request, hport, hbody, hsend, hrb]
  · simp only [successResponse, addCorsHeaders]
    rw [getAll_mapInsert_ne _ _ _ _ (by decide),
      getAll_mapInsert_ne _ _ _ _ (by decide), getAll_mapInsert_self]
  · simp only [successResponse, addCorsHeaders]
    rw [getAll_mapInsert_ne _ _ _ _ (by decide), getAll_mapInsert_self]
  · simp only [successResponse, addCorsHeaders]
    rw [getAll_mapInsert_self]
  · simp only [successResponse]
    rw [if_pos ⟨hlo, hhi⟩]

/-- C4 witness: a backend answering 201 with its own
`access-control-allow-origin` header still yields the forced `*` value. -/
theorem proxy_success_forces_cors_and_status_witness :
    proxy_request ⟨some 3000⟩ ⟨"GET", true, "/api/x", [], true, ""⟩
        (fun _ => SendResult.ok ⟨201,
          [⟨"access-control-allow-origin", "http://evil.example", true⟩],
          true, "ok"⟩) =
      .ok (successResponse ⟨201,
        [⟨"access-control-allow-origin", "http://evil.example", true⟩],
        true, "ok"⟩) ∧
    getAll (successResponse (⟨201,
      [⟨"access-control-allow-origin", "http://evil.example", true⟩],
      true, "ok"⟩ : BackendResp)).headers "access-control-allow-origin" =
      ["*"] ∧
    getAll (successResponse (⟨201,
      [⟨"access-control-allow-origin", "http://evil.example", true⟩],
      true, "ok"⟩ : BackendResp)).headers "access-control-allow-methods" =
      ["GET, POST, PUT, DELETE, OPTIONS"] ∧
    getAll (successResponse (⟨201,
      [⟨"access-control-allow-origin", "http://evil.example", true⟩],
      true, "ok"⟩ : BackendResp)).headers "access-control-allow-headers" =
      ["content-type, authorization"] ∧
    (successResponse (⟨201,
      [⟨"access-control-allow-origin", "http://evil.example", true⟩],
      true, "ok"⟩ : BackendResp)).status = 201 :=
  proxy_success_forces_cors_and_status _ 3000 _ _ _ rfl rfl rfl rfl
    (by decide) (by decide)

/-! ## Substring lemmas for the 502 diagnostic body -/

lemma isPrefixOf_append_self (l t : List Char) : l.isPrefixOf (l ++ t) = true := by
  induction l with
  | nil => simp [List.isPrefixOf]
  | cons a l ih => simp [List.isPrefixOf, List.cons_append, ih]

lemma containsSubChars_sandwich (pat l1 l2 : List Char) :
    containsSubChars pat (l1 ++ (pat ++ l2)) = true := by
  induction l1 with
  | nil =>
    simp only [List.nil_append]
    cases hp : pat with
    | nil => cases l2 <;> simp [containsSubChars]
    | cons c cs =>
      rw [List.cons_append, containsSubChars]
      rw [← List.cons_append, ← hp, isPrefixOf_append_self]
      simp
  | cons a t ih =>
    rw [List.cons_append, containsSubChars]
    simp [ih]

/-- Substring containment from a decomposition of the string's characters. -/
lemma strContains_of_data_eq (s pat : String) (x y : List Char)
    (h : s.data = x ++ (pat.data ++ y)) : strContains s pat = true := by
  rw [strContains, h]
  exact containsSubChars_sandwich _ _ _

/-- C7: on a connection failure the forwarder returns `Ok` with the 502
diagnostic: JSON body naming the error, a message containing the configured
backend port, a suggestion field, plus the CORS and content-type headers. -/
theorem proxy_connect_failure_diagnostic (cfg : Config) (port : Nat)
    (req : InboundRequest) (backend : OutboundRequest → SendResult)
    (hport : cfg.proxy_port = some port)
    (hbody : req.bodyOk = true)
    (hsend : backend (buildOutbound port req) = SendResult.connectErr) :
    proxy_request cfg req backend = .ok (backendDownResponse port) ∧
    (backendDownResponse port).status = 502 ∧
    ("access-control-allow-origin", "*") ∈ (backendDownResponse port).headers ∧
    ("content-type", "application/json") ∈ (backendDownResponse port).headers ∧
    strContains (backendDownResponse port).body
      "\"error\": \"Backend server not available\"" = true ∧
    strContains (backendDownResponse port).body
      ("\"message\": \"No server found at localhost:" ++ toString port) = true ∧
    strContains (backendDownResponse port).body "\"suggestion\"" = true := by
  refine ⟨?_, rfl, ?_, ?_, ?_, ?_, ?_⟩
  · simp [proxy_request, hport, hbody, hsend]
  · simp [backendDownResponse]
  · simp [backendDownResponse]
  · refine strContains_of_data_eq _ _ ("\x7b\n    ").data
      ((",\n    \"message\": \"No server found at localhost:").data ++
        ((toString port).data ++
          ((".\",\n    \"suggestion\": \"Start your backend on port ").data ++
            ((toString port).data ++ ("\"\n\x7d").data)))) ?_
    simp [backendDownBody, backendDownResponse, String.data_append,
      List.append_assoc, List.cons_append]
  · refine strContains_of_data_eq _ _
      ("\x7b\n    \"error\": \"Backend server not available\",\n    ").data
      ((".\",\n    \"suggestion\": \"Start your backend on port ").data ++
        ((toString port).data ++ ("\"\n\x7d").data)) ?_
    simp [backendDownBody, backendDownResponse, String.data_append,
      List.append_assoc, List.cons_append]
  · refine strContains_of_data_eq _ _
      (("\x7b\n    \"error\": \"Backend server not available\",\n    \"message\": \"No server found at localhost:").data ++
        ((toString port).data ++ (".\",\n    ").data))
      ((": \"Start your backend on port ").data ++
        ((toString port).data ++ ("\"\n\x7d").data)) ?_
    simp [backendDownBody, backendDownResponse, String.data_append,
      List.append_assoc, List.cons_append]

/-- C7 witness: the diagnostic at backend port 5000. -/
theorem proxy_connect_failure_diagnostic_witness :
    proxy_request ⟨some 5000⟩ ⟨"GET", true, "/api/x", [], true, ""⟩
        (fun _ => SendResult.connectErr) = .ok (backendDownResponse 5000) ∧
    (backendDownResponse 5000).status = 502 ∧
    ("access-control-allow-origin", "*") ∈ (backendDownResponse 5000).headers ∧
    ("content-type", "application/json") ∈ (backendDownResponse 5000).headers ∧
    strContains (backendDownResponse 5000).body
      "\"error\": \"Backend server not available\"" = true ∧
    strContains (backendDownResponse 5000).body
      ("\"message\": \"No server found at localhost:" ++ toString 5000) = true ∧
    strContains (backendDownResponse 5000).body "\"suggestion\"" = true :=
  proxy_connect_failure_diagnostic _ 5000 _ _ rfl rfl rfl

/-- C8 (amended): a non-connect failure of the send itself yields the
generic 502; a failure reading the backend response body yields 500 (not
502); an unreadable inbound request body yields 400 whatever the backend
would do. -/
theorem proxy_error_status_codes (cfg : Config) (port : Nat)
    (req req2 : InboundRequest)
    (backend backend2 backend3 : OutboundRequest → SendResult)
    (resp : BackendResp)
    (hport : cfg.proxy_port = some port)
    (hbody : req.bodyOk = true)
    (hsend : backend (buildOutbound port req) = SendResult.otherErr)
    (hsend2 : backend2 (buildOutbound port req) = SendResult.ok resp)
    (hrb : resp.bodyOk = false)
    (hbody2 : req2.bodyOk = false) :
    proxy_request cfg req backend = .error 502 ∧
    proxy_request cfg req backend2 = .error 500 ∧
    proxy_request cfg req2 backend3 = .error 400 := by
  refine ⟨?_, ?_, ?_⟩ <;>
    simp [proxy_request, hport, hbody, hsend, hsend2, hrb, hbody2]

/-- C8 witness: the three error codes at concrete inputs. -/
theorem proxy_error_status_codes_witness :
    proxy_request ⟨some 3000⟩ ⟨"GET", true, "/api/x", [], true, ""⟩
        (fun _ => SendResult.otherErr) = .error 502 ∧
    proxy_request ⟨some 3000⟩ ⟨"GET", true, "/api/x", [], true, ""⟩
        (fun _ => SendResult.ok ⟨200, [], false, ""⟩) = .error 500 ∧
    proxy_request ⟨some 3000⟩ ⟨"GET", true, "/api/x", [], false, ""⟩
        (fun _ => SendResult.otherErr) = .error 400 :=
  proxy_error_status_codes _ 3000 _ _ _ _ _ ⟨200, [], false, ""⟩
    rfl rfl rfl rfl rfl rfl

/-- C8 counterexample: a backend response whose body read fails makes
`proxy_request` return 500, not the 502 the claim asserts for every
non-connect backend error. -/
theorem backend_body_read_failure_not_502 :
    proxy_request ⟨some 3000⟩ ⟨"GET", true, "/api/x", [], true, ""⟩
        (fun _ => SendResult.ok ⟨200, [], false, ""⟩) = .error 500 ∧
      (Except.error 500 : Except Nat HttpResponse) ≠ .error 502 := by
  constructor
  · rfl
  · simp

/-- Dropping the entries whose conversion fails before the fold does not
change the fold's result: `fwdStep` ignores them. -/
lemma foldl_fwdStep_filter_convOk (hs : List Header) :
    ∀ m, hs.foldl fwdStep m = (hs.filter Header.convOk).foldl fwdStep m := by
  induction hs with
  | nil => intro m; rfl
  | cons h t ih =>
    intro m
    by_cases hc : h.convOk
    · simp [List.filter_cons, hc, List.foldl_cons, ih]
    · by_cases hhop : is_hop_by_hop_header (toLowerStr h.name) <;>
        simp [List.filter_cons, hc, fwdStep, hhop, ih]

/-- C10: headers whose name/value conversion fails are silently dropped:
the outbound request is exactly the one built from the convertible entries
alone, and the whole forwarding result is unchanged — the backend request is
still issued, merely without those headers. -/
theorem unconvertible_headers_silently_dropped (cfg : Config)
    (req : InboundRequest) (backend : OutboundRequest → SendResult) :
    (∀ port : Nat, buildOutbound port req =
      buildOutbound port
        { req with headers := req.headers.filter Header.convOk }) ∧
    proxy_request cfg req backend =
      proxy_request cfg
        { req with headers := req.headers.filter Header.convOk } backend := by
  have hh : forwardHeaders req.headers =
      forwardHeaders (req.headers.filter Header.convOk) :=
    foldl_fwdStep_filter_convOk req.headers []
  have hout : ∀ port : Nat, buildOutbound port req =
      buildOutbound port
        { req with headers := req.headers.filter Header.convOk } := by
    intro port
    simp only [buildOutbound]
    rw [hh]
  refine ⟨hout, ?_⟩
  cases hcfg : cfg.proxy_port with
  | none => simp [proxy_request, hcfg]
  | some port =>
    simp only [proxy_request, hcfg]
    rw [← hout port]

/-! ## Router dispatch (`build_router`, `src/main.rs` lines 356-387)

The router registers `/health` and `/healthz`, then — when a backend is
configured — a fallback closure (classifier-Proxy paths call the forwarder,
every other path is answered with an immediate `Err(StatusCode::NOT_FOUND)`)
followed by `fallback_service(ServeDir)`, a second catch-all registration.
An axum router keeps a single catch-all fallback and never chains one
fallback's 404 into another, so exactly one of the two registrations
handles non-route requests; the `closureActive` flag below ranges over both
possible resolutions of the duplicate registration. -/

/-- Which handler a request ends at. -/
inductive Handler where
  | health
  | proxyForwarder
  | immediate404
  | staticResponder
deriving DecidableEq, Repr

/-- The fallback closure installed by `build_router` when a backend is
configured (lines 370-381). -/
def fallbackClosure (path : String) : Handler :=
  if should_proxy path then .proxyForwarder else .immediate404

/-- Dispatch of one request by the built router. -/
def routeRequest (closureActive : Bool) (backendConfigured : Bool)
    (path : String) : Handler :=
  if path == "/health" || path == "/healthz" then .health
  else if backendConfigured then
    (if closureActive then fallbackClosure path else .staticResponder)
  else .staticResponder

/-- C3: with a backend configured the claimed dispatch fails under either
resolution of the duplicate fallback registration: if the closure handles
fallbacks, the classifier-Static path `/index.html` gets an immediate 404
instead of the static responder; if `ServeDir` handles them, the
classifier-Proxy path `/api/users` goes to the static responder instead of
the proxy forwarder. -/
theorem router_fallback_diverges_from_claim :
    (routeRequest true true "/index.html" = Handler.immediate404 ∧
      Handler.immediate404 ≠ Handler.staticResponder) ∧
    (routeRequest false true "/api/users" = Handler.staticResponder ∧
      Handler.staticResponder ≠ Handler.proxyForwarder) := by
  decide

/-! ## Startup port-conflict check (`main`, `src/main.rs` lines 138-180)

`main` resolves the site list, then runs the conflict loop (lines 161-169):
a `HashSet` of seen ports, `process::exit(1)` on the first repeat.  Only
after the loop does it call `run_single_site` / `run_multi_sites`, which
are where `TcpListener::bind` happens; so the `exitNonZero` outcome below
is an exit before any listener is bound and before any server starts. -/

/-- One resolved site (`SiteConfig` in `src/main.rs`). -/
structure SiteConfig where
  name : String
  root : String
  port : Nat
  https : Bool
  proxy_to : Option Nat
deriving DecidableEq, Repr

/-- The conflict loop: `used` is the set of ports seen so far; a repeated
port returns `true` (the code's `exit(1)`). -/
def hasPortConflict : List Nat → List SiteConfig → Bool
  | _, [] => false
  | used, s :: rest =>
    if used.contains s.port then true
    else hasPortConflict (s.port :: used) rest

/-- Outcome of `main` up to the point servers start. -/
inductive MainOutcome where
  | exitNonZero (code : Nat)
  | runServers (sites : List SiteConfig)
deriving DecidableEq, Repr

/-- Embedding of `main`'s control flow after site resolution: exit 1 when
no sites resolve, exit 1 on a port conflict, otherwise proceed to start the
servers (where binding happens). -/
def mainDispatch (sites : List SiteConfig) : MainOutcome :=
  if sites.isEmpty then .exitNonZero 1
  else if hasPortConflict [] sites then .exitNonZero 1
  else .runServers sites

/-- The conflict loop detects every duplicate: it returns `true` whenever a
seen port reappears in the remaining sites or the remaining ports
themselves repeat. -/
lemma hasPortConflict_complete (sites : List SiteConfig) :
    ∀ used : List Nat,
      ((∃ q ∈ used, q ∈ sites.map SiteConfig.port) ∨
        ¬ (sites.map SiteConfig.port).Nodup) →
      hasPortConflict used sites = true := by
  induction sites with
  | nil =>
    intro used h
    rcases h with ⟨q, _, hq⟩ | h
    · simp at hq
    · simp at h
  | cons s rest ih =>
    intro used h
    rw [hasPortConflict]
    by_cases hc : used.contains s.port = true
    · rw [if_pos hc]
    · rw [if_neg hc]
      apply ih
      rcases h with ⟨q, hqu, hqm⟩ | hnd
      · rw [List.map_cons, List.mem_cons] at hqm
        rcases hqm with hq1 | hqm
        · exfalso
          apply hc
          rw [List.contains, List.elem_iff]
          rw [← hq1]
          exact hqu
        · exact Or.inl ⟨q, List.mem_cons_of_mem _ hqu, hqm⟩
      · rw [List.map_cons, List.nodup_cons] at hnd
        rcases not_and_or.mp hnd with h1 | h2
        · exact Or.inl ⟨s.port, List.mem_cons_self _ _, not_not.mp h1⟩
        · exact Or.inr h2

/-- C9: when two distinct positions of the resolved site list carry the
same port, `main` exits with code 1 before reaching the server-starting
(and listener-binding) branch — no site is started. -/
theorem port_conflict_exits_before_bind (sites : List SiteConfig)
    (i j : Nat) (hi : i < sites.length) (hj : j < sites.length)
    (hij : i ≠ j)
    (hp : (sites.get ⟨i, hi⟩).port = (sites.get ⟨j, hj⟩).port) :
    mainDispatch sites = MainOutcome.exitNonZero 1 ∧
    ∀ l : List SiteConfig, mainDispatch sites ≠ MainOutcome.runServers l := by
  have hi' : i < (sites.map SiteConfig.port).length := by simpa using hi
  have hj' : j < (sites.map SiteConfig.port).length := by simpa using hj
  have hnd : ¬ (sites.map SiteConfig.port).Nodup := by
    intro hnod
    have hinj := List.nodup_iff_injective_get.mp hnod
    have hgi : (sites.map SiteConfig.port).get ⟨i, hi'⟩ =
        (sites.get ⟨i, hi⟩).port := by
      simp [List.get_eq_getElem, List.getElem_map]
    have hgj : (sites.map SiteConfig.port).get ⟨j, hj'⟩ =
        (sites.get ⟨j, hj⟩).port := by
      simp [List.get_eq_getElem, List.getElem_map]
    have hget : (sites.map SiteConfig.port).get ⟨i, hi'⟩ =
        (sites.map SiteConfig.port).get ⟨j, hj'⟩ := by
      rw [hgi, hgj, hp]
    have := hinj hget
    exact hij (by simpa using this)
  have hconf : hasPortConflict [] sites = true :=
    hasPortConflict_complete sites [] (Or.inr hnd)
  have hmain : mainDispatch sites = MainOutcome.exitNonZero 1 := by
    by_cases hempty : sites.isEmpty <;> simp [mainDispatch, hempty, hconf]
  exact ⟨hmain, fun l hl => by rw [hmain] at hl; cases hl⟩

/-- C9 witness: two sites on port 8080 make the run exit non-zero. -/
theorem port_conflict_exits_before_bind_witness :
    mainDispatch [⟨"a", "dist", 8080, false, none⟩,
        ⟨"b", "www", 8080, false, none⟩] = MainOutcome.exitNonZero 1 ∧
    ∀ l : List SiteConfig,
      mainDispatch [⟨"a", "dist", 8080, false, none⟩,
        ⟨"b", "www", 8080, false, none⟩] ≠ MainOutcome.runServers l :=
  port_conflict_exits_before_bind _ 0 1 (by decide) (by decide)
    (by decide) rfl
